import Mathlib

/-!
# gomonitor: a shallow embedding of `gomonitor.go`

The program drives a browser through the chromedp client: it enables page
lifecycle events, emulates a device and a viewport, navigates, waits for the
`networkIdle` lifecycle event, measures the page content, overrides the device
metrics, captures a JPEG screenshot and writes it to a file.

The embedding has three layers:

* `waitFor`: the lifecycle-event waiter, as a state machine driven by a trace of
  environment steps (notifications, passing time, termination of the outer
  context);
* `fullScreenshot`: the task list, run against a `Backend` that answers every
  request, with a log of the operations issued;
* `main`: the program entry, run against a file system.

Go values of type `float64` are modelled by rationals (the program only copies
them and applies `math.Ceil`, both exact on finite values; NaN and the infinities
are outside the model). Durations are natural numbers of nanoseconds.
-/

namespace Gomonitor

/-! ## Errors, notifications, environment steps -/

/-- Go `error` values the program can observe. -/
inductive GoError
  /-- `context.Canceled` -/
  | canceled
  /-- `context.DeadlineExceeded` -/
  | deadlineExceeded
  /-- any other error, e.g. one returned by the browser for a request -/
  | other (msg : String)
  deriving DecidableEq, Repr

/-- A notification handed to a target listener (`ev interface{}` in the source). -/
inductive Event
  /-- `*page.EventLifecycleEvent` with its `Name` field -/
  | lifecycle (name : String)
  /-- a notification of any other dynamic type, tagged by its method name -/
  | other (method : String)
  deriving DecidableEq, Repr

/-- What the environment can do while `waitFor` is blocked in its `select`. -/
inductive Step
  /-- the target dispatches a notification to its listeners -/
  | deliver (ev : Event)
  /-- `d` nanoseconds pass -/
  | elapse (d : Nat)
  /-- the context passed to `waitFor` ends with error `e`
      (`canceled` for a cancellation, `deadlineExceeded` for a deadline of its own) -/
  | outerDone (e : GoError)
  deriving DecidableEq, Repr

/-! ## `waitFor` -/

/-- `time.Duration(60)*time.Second`, in nanoseconds. -/
def waitTimeout : Nat := 60 * 1000000000

/-- The variables of one call of `waitFor`. -/
structure WaitState where
  /-- nanoseconds since `context.WithTimeout` was called -/
  elapsed : Nat
  /-- `ctx.Err()`: `none` while the outer context is live -/
  ctxErr : Option GoError
  /-- `cctx.Err()`: `none` while the derived context is live -/
  cctxErr : Option GoError
  /-- whether `ch` is closed -/
  chClosed : Bool
  /-- how many times `close(ch)` has been executed -/
  closeCalls : Nat
  /-- whether a `close` of the already closed `ch` was executed (a Go panic) -/
  panicked : Bool
  /-- the notifications on which the listener callback has been invoked, oldest first -/
  invoked : List Event
  deriving DecidableEq, Repr

/-- The state right after `ch := make(chan struct{})`,
`cctx, cancel := context.WithTimeout(ctx, ...)` and `chromedp.ListenTarget(cctx, ...)`. -/
def WaitState.init : WaitState :=
  { elapsed := 0, ctxErr := none, cctxErr := none, chClosed := false,
    closeCalls := 0, panicked := false, invoked := [] }

/-- Modelled from the spec: the `cancel` function returned by `context.WithTimeout`
("cancels the derived context"); a context that is already done keeps its error. -/
def cancel (s : WaitState) : WaitState :=
  match s.cctxErr with
  | none => { s with cctxErr := some GoError.canceled }
  | some _ => s

/-- The statement `close(ch)`: closing a closed channel panics. -/
def closeCh (s : WaitState) : WaitState :=
  if s.chClosed then { s with closeCalls := s.closeCalls + 1, panicked := true }
  else { s with chClosed := true, closeCalls := s.closeCalls + 1 }

/-- The callback passed to `chromedp.ListenTarget` in `waitFor`:
a type switch on the notification, then `e.Name == eventName`. -/
def listener (eventName : String) (ev : Event) (s : WaitState) : WaitState :=
  match ev with
  | Event.lifecycle name => if name = eventName then closeCh (cancel s) else s
  | Event.other _ => s

/-- Modelled from the spec: the listener registered by `chromedp.ListenTarget(cctx, fn)`
lives "for the lifetime of the derived context" and "is implicitly torn down when that
context ends": a notification reaches the callback only while `cctx` is live. -/
def dispatch (eventName : String) (ev : Event) (s : WaitState) : WaitState :=
  match s.cctxErr with
  | some _ => s
  | none => listener eventName ev { s with invoked := s.invoked ++ [ev] }

/-- Modelled from the spec: the derived context is "bounded by a fixed 60-second
timeout": once `waitTimeout` has elapsed a live `cctx` ends with `deadlineExceeded`.
The outer context `ctx` has no part in this timer. -/
def advance (d : Nat) (s : WaitState) : WaitState :=
  match s.cctxErr with
  | none =>
    if waitTimeout ≤ s.elapsed + d then
      { s with elapsed := s.elapsed + d, cctxErr := some GoError.deadlineExceeded }
    else { s with elapsed := s.elapsed + d }
  | some _ => { s with elapsed := s.elapsed + d }

/-- Modelled from the spec: "cancellation propagates top-down": when the outer context
ends, a derived context that is still live ends with the same error. -/
def endOuter (e : GoError) (s : WaitState) : WaitState :=
  match s.ctxErr with
  | some _ => s
  | none =>
    { s with
      ctxErr := some e
      cctxErr := match s.cctxErr with
        | none => some e
        | some c => some c }

/-- One environment step. -/
def step (eventName : String) (s : WaitState) : Step → WaitState
  | Step.deliver ev => dispatch eventName ev s
  | Step.elapse d => advance d s
  | Step.outerDone e => endOuter e s

/-- The environment alone: the state after all of `trace`, whether or not `waitFor`
has returned in the meantime (the listener outlives the call while `cctx` is live). -/
def run (eventName : String) (s : WaitState) (trace : List Step) : WaitState :=
  trace.foldl (step eventName) s

/-- What a call that may block gives. -/
inductive Wait
  /-- still blocked when the trace ends -/
  | blocked
  /-- returned `err` (`none` is Go's `nil`) -/
  | returned (err : Option GoError)
  deriving DecidableEq, Repr

/-- The `select` of `waitFor`:
`case <-ch: return nil` and `case <-ctx.Done(): return ctx.Err()`.
It reads the OUTER context `ctx`, not the derived `cctx`. `none` means no case is
ready. Go picks any ready case; `waitLoop` evaluates the `select` after every single
environment step, where at most one case has become ready (`select_no_tie`). -/
def selectNow (s : WaitState) : Option (Option GoError) :=
  if s.chClosed then some none
  else match s.ctxErr with
    | some e => some (some e)
    | none => none

/-- The blocking `select` against a trace: return as soon as a case is ready,
otherwise let the environment take its next step. -/
def waitLoop (eventName : String) : WaitState → List Step → Wait
  | s, [] =>
    match selectNow s with
    | some r => Wait.returned r
    | none => Wait.blocked
  | s, st :: rest =>
    match selectNow s with
    | some r => Wait.returned r
    | none => waitLoop eventName (step eventName s st) rest

/-- `waitFor(ctx, eventName)` against the environment steps `trace`. -/
def waitFor (eventName : String) (trace : List Step) : Wait :=
  waitLoop eventName WaitState.init trace

/-! ## Requests, backend and task execution -/

/-- `math.Ceil` on a finite value. -/
def mathCeil (x : ℚ) : ℚ := (⌈x⌉ : Int)

/-- The conversion `int64(f)` of a `float64`: the fraction is discarded (truncation
towards zero); a value outside the `int64` range has no representation, the result is
then implementation-dependent and taken here as amd64 gives it, `-2^63`. -/
def int64 (x : ℚ) : Int :=
  let t : Int := if 0 ≤ x then ⌊x⌋ else ⌈x⌉
  if -(2 : Int) ^ 63 ≤ t ∧ t < (2 : Int) ^ 63 then t else -(2 : Int) ^ 63

/-- `dom.Rect`, the `contentSize` answered by `page.GetLayoutMetrics`. -/
structure Rect where
  x : ℚ
  y : ℚ
  width : ℚ
  height : ℚ
  deriving DecidableEq, Repr

/-- `page.Viewport`, the clip of a capture request. -/
structure Viewport where
  x : ℚ
  y : ℚ
  width : ℚ
  height : ℚ
  scale : ℚ
  deriving DecidableEq, Repr

/-- `page.CaptureScreenshotFormat`. -/
inductive CaptureScreenshotFormat
  | jpeg
  | png
  deriving DecidableEq, Repr

/-- `emulation.OrientationType`. -/
inductive OrientationType
  | portraitPrimary
  | portraitSecondary
  | landscapePrimary
  | landscapeSecondary
  deriving DecidableEq, Repr

/-- `emulation.ScreenOrientation`. -/
structure ScreenOrientation where
  type : OrientationType
  angle : Int
  deriving DecidableEq, Repr

/-- The operations the task list performs against the browser, with their parameters. -/
inductive Op
  /-- `page.Enable()` -/
  | pageEnable
  /-- `page.SetLifecycleEventsEnabled(enabled)` -/
  | setLifecycleEventsEnabled (enabled : Bool)
  /-- `chromedp.Emulate(device)` -/
  | emulate (device : String)
  /-- `chromedp.EmulateViewport(width, height, chromedp.EmulateScale(scale))` -/
  | emulateViewport (width height : Int) (scale : ℚ)
  /-- `page.Navigate(url)` -/
  | navigate (url : String)
  /-- the call `waitFor(ctx, eventName)` -/
  | waitFor (eventName : String)
  /-- `page.GetLayoutMetrics()` -/
  | getLayoutMetrics
  /-- `emulation.SetDeviceMetricsOverride(width, height, deviceScaleFactor, mobile)
      .WithScreenOrientation(orientation)` -/
  | setDeviceMetricsOverride (width height : Int) (deviceScaleFactor : ℚ) (mobile : Bool)
      (orientation : ScreenOrientation)
  /-- `page.CaptureScreenshot().WithFormat(format).WithQuality(quality).WithClip(clip)` -/
  | captureScreenshot (format : CaptureScreenshotFormat) (quality : Int) (clip : Viewport)
  deriving DecidableEq, Repr

/-- The nine kinds of operation, without parameters. -/
inductive OpKind
  | pageEnable
  | lifecycleEventsEnable
  | deviceEmulation
  | viewportEmulation
  | navigate
  | waitNetworkIdle
  | layoutMetricsQuery
  | deviceMetricsOverride
  | screenshotCapture
  deriving DecidableEq, Repr

/-- The kind of an operation. A wait for another event than `networkIdle` has no kind
in the fixed order. -/
def Op.kind : Op → Option OpKind
  | Op.pageEnable => some OpKind.pageEnable
  | Op.setLifecycleEventsEnabled _ => some OpKind.lifecycleEventsEnable
  | Op.emulate _ => some OpKind.deviceEmulation
  | Op.emulateViewport _ _ _ => some OpKind.viewportEmulation
  | Op.navigate _ => some OpKind.navigate
  | Op.waitFor eventName =>
    if eventName = "networkIdle" then some OpKind.waitNetworkIdle else none
  | Op.getLayoutMetrics => some OpKind.layoutMetricsQuery
  | Op.setDeviceMetricsOverride _ _ _ _ _ => some OpKind.deviceMetricsOverride
  | Op.captureScreenshot _ _ _ => some OpKind.screenshotCapture

/-- The fixed order of the task sequence. -/
def fixedOrder : List OpKind :=
  [OpKind.pageEnable, OpKind.lifecycleEventsEnable, OpKind.deviceEmulation,
   OpKind.viewportEmulation, OpKind.navigate, OpKind.waitNetworkIdle,
   OpKind.layoutMetricsQuery, OpKind.deviceMetricsOverride, OpKind.screenshotCapture]

/-- The browser side, as far as the program can observe it. Every operation is issued
at most once per run, so answers that depend on the operation and its parameters cover
every behaviour. -/
structure Backend where
  /-- session creation: the error of starting the browser, `none` when it starts -/
  allocate : Option GoError
  /-- the error answered to a request, `none` for success
      (the wait step is answered by `events` instead) -/
  fail : Op → Option GoError
  /-- the content geometry answered by a successful layout metrics query -/
  contentSize : Rect
  /-- the bytes answered by a successful capture request -/
  image : Op → List UInt8
  /-- what the environment does while the wait step is blocked -/
  events : List Step

/-- The state threaded through the task list. -/
structure TaskState where
  /-- the operations issued so far, oldest first -/
  log : List Op
  /-- the buffer `*res` -/
  res : List UInt8
  deriving DecidableEq, Repr

/-- The state before the first task: nothing issued, `var buf []byte` empty. -/
def TaskState.init : TaskState := { log := [], res := [] }

/-- A `chromedp.Action`: run against the backend, it blocks forever or returns an error
(`none` is `nil`), and leaves a new state. -/
abbrev Action := Backend → TaskState → Wait × TaskState

/-- Issue one request: record it and read the backend's answer. -/
def request (b : Backend) (op : Op) (s : TaskState) : Option GoError × TaskState :=
  (b.fail op, { s with log := s.log ++ [op] })

/-- The function `enableLifeCycleEvents`. -/
def enableLifeCycleEvents : Action := fun b s =>
  match request b Op.pageEnable s with
  | (some err, s1) => (Wait.returned (some err), s1)
  | (none, s1) =>
    match request b (Op.setLifecycleEventsEnabled true) s1 with
    | (some err, s2) => (Wait.returned (some err), s2)
    | (none, s2) => (Wait.returned none, s2)

/-- The function `navigateAndWaitFor`: navigate, then `return waitFor(ctx, eventName)`
(the `return nil` after it is unreachable). -/
def navigateAndWaitFor (url : String) (eventName : String) : Action := fun b s =>
  match request b (Op.navigate url) s with
  | (some err, s1) => (Wait.returned (some err), s1)
  | (none, s1) =>
    (waitFor eventName b.events, { s1 with log := s1.log ++ [Op.waitFor eventName] })

/-- Modelled from the spec: a library action ("device/viewport emulation actions") is one
step that succeeds or fails as a whole. -/
def libraryAction (op : Op) : Action := fun b s =>
  match request b op s with
  | (some err, s1) => (Wait.returned (some err), s1)
  | (none, s1) => (Wait.returned none, s1)

/-- The `chromedp.ActionFunc` literal of `fullScreenshot`: layout metrics, device
metrics override, capture into `*res`. -/
def measureAndCapture (quality : Int) : Action := fun b s =>
  match request b Op.getLayoutMetrics s with
  | (some err, s1) => (Wait.returned (some err), s1)
  | (none, s1) =>
    let contentSize := b.contentSize
    let width := int64 (mathCeil contentSize.width)
    let height := int64 (mathCeil contentSize.height)
    match request b (Op.setDeviceMetricsOverride width height 1 false
        { type := OrientationType.landscapePrimary, angle := 0 }) s1 with
    | (some err, s2) => (Wait.returned (some err), s2)
    | (none, s2) =>
      let capture := Op.captureScreenshot CaptureScreenshotFormat.jpeg quality
        { x := contentSize.x, y := contentSize.y, width := contentSize.width,
          height := contentSize.height, scale := 1 }
      match request b capture s2 with
      | (some err, s3) => (Wait.returned (some err), { s3 with res := [] })
      | (none, s3) => (Wait.returned none, { s3 with res := b.image capture })

/-- The function `fullScreenshot`: the task list (`res` is the buffer of `TaskState`). -/
def fullScreenshot (url : String) (quality : Int) : List Action :=
  [ enableLifeCycleEvents,
    libraryAction (Op.emulate "iPad"),
    libraryAction (Op.emulateViewport 1024 768 2),
    navigateAndWaitFor url "networkIdle",
    measureAndCapture quality ]

/-- Modelled from the spec: the "sequential task-list executor" (`chromedp.Tasks.Do`):
the actions run in order and the first one that does not succeed ends the list with
its result. -/
def tasksDo : List Action → Action
  | [], _, s => (Wait.returned none, s)
  | a :: rest, b, s =>
    match a b s with
    | (Wait.returned none, s1) => tasksDo rest b s1
    | (r, s1) => (r, s1)

/-- Modelled from the spec: `chromedp.Run`: session creation ("browser fails to
start/connect" is an error of the run), then the task list. -/
def chromedpRun (actions : List Action) : Action := fun b s =>
  match b.allocate with
  | some err => (Wait.returned (some err), s)
  | none => tasksDo actions b s

/-! ## Program entry -/

/-- The default of the flag `-url`. -/
def defaultUrl : String := "https://carto.lausanne.ch/"

/-- The default of the flag `-filename`. -/
def defaultFileName : String := "screenshot.jpg"

/-- The two flags after `flag.Parse()`. -/
structure Flags where
  url2Monitor : String
  filename : String
  deriving DecidableEq, Repr

/-- The flags of a command line that sets none. -/
def Flags.default : Flags := { url2Monitor := defaultUrl, filename := defaultFileName }

/-- A file: its bytes and its permission bits. -/
structure File where
  data : List UInt8
  perm : Nat
  deriving DecidableEq, Repr

/-- A file system: the file under each name, if any. -/
abbrev FileSystem := String → Option File

/-- One call of `ioutil.WriteFile(name, data, perm)`. -/
structure WriteCall where
  name : String
  data : List UInt8
  perm : Nat
  deriving DecidableEq, Repr

/-- The operating system under `main`: what a call of `ioutil.WriteFile` answers and
leaves behind. -/
structure OpSys where
  writeFile : WriteCall → FileSystem → Option GoError × FileSystem

/-- Modelled from the spec: the write "writes the captured bytes to the named file with
standard read/write owner permissions, overwriting any existing file of that name". -/
def specOpSys : OpSys :=
  { writeFile := fun c fs =>
      (none, fun n => if n = c.name then some { data := c.data, perm := c.perm } else fs n) }

/-- How the process ends. -/
inductive Exit
  /-- `main` returns -/
  | success
  /-- `log.Fatal(err)` -/
  | fatal (err : GoError)
  /-- `main` never returns -/
  | hung
  deriving DecidableEq, Repr

/-- The observable result of running the program. -/
structure MainResult where
  exit : Exit
  /-- the file system afterwards -/
  fs : FileSystem
  /-- the calls of `ioutil.WriteFile` made, oldest first -/
  writes : List WriteCall

/-- The function `main`, after flag parsing: run the task list with quality 90, then
write the buffer with mode `0644`. -/
def main (flags : Flags) (b : Backend) (sys : OpSys) (fs : FileSystem) : MainResult :=
  match chromedpRun (fullScreenshot flags.url2Monitor 90) b TaskState.init with
  | (Wait.blocked, _) => { exit := Exit.hung, fs := fs, writes := [] }
  | (Wait.returned (some err), _) => { exit := Exit.fatal err, fs := fs, writes := [] }
  | (Wait.returned none, s) =>
    let call : WriteCall := { name := flags.filename, data := s.res, perm := 0o644 }
    match sys.writeFile call fs with
    | (some err, fs1) => { exit := Exit.fatal err, fs := fs1, writes := [call] }
    | (none, fs1) => { exit := Exit.success, fs := fs1, writes := [call] }

/-- The result of an issued operation: the wait step is answered by the waiter run
against the environment, every other operation by the backend. -/
def reply (b : Backend) : Op → Wait
  | Op.waitFor eventName => waitFor eventName b.events
  | op => Wait.returned (b.fail op)

/-- The nine operations of `fullScreenshot` in the order the source issues them, each
with the parameters the source gives it, for the content geometry `cs` answered by the
layout metrics query: steps `0..8`. A backend's answers are stated over this list. -/
def allOps (url : String) (quality : Int) (cs : Rect) : List Op :=
  [ Op.pageEnable,
    Op.setLifecycleEventsEnabled true,
    Op.emulate "iPad",
    Op.emulateViewport 1024 768 2,
    Op.navigate url,
    Op.waitFor "networkIdle",
    Op.getLayoutMetrics,
    Op.setDeviceMetricsOverride (int64 (mathCeil cs.width)) (int64 (mathCeil cs.height))
      1 false { type := OrientationType.landscapePrimary, angle := 0 },
    Op.captureScreenshot CaptureScreenshotFormat.jpeg quality
      { x := cs.x, y := cs.y, width := cs.width, height := cs.height, scale := 1 } ]

/-! ## Scenarios -/

/-- A backend that accepts every request, emits `networkIdle` at once, reports the
content geometry `cs` and answers a capture with four bytes. -/
def stubWith (cs : Rect) : Backend :=
  { allocate := none
    fail := fun _ => none
    contentSize := cs
    image := fun _ => [0xFF, 0xD8, 0xFF, 0xD9]
    events := [Step.deliver (Event.lifecycle "networkIdle")] }

/-- The stub of the end-to-end scenario: layout metrics `{0, 0, 500.5, 300.0}`. -/
def stubBackend : Backend := stubWith { x := 0, y := 0, width := 500.5, height := 300 }

/-- A page whose content is 799.2 wide and 600 high. -/
def stubWide : Backend := stubWith { x := 0, y := 0, width := 799.2, height := 600 }

/-- A page that reports a content width of `2^63`. -/
def hugePage : Backend :=
  stubWith { x := 0, y := 0, width := 9223372036854775808, height := 1 }

/-- The stub of the failure scenario: the layout metrics query is answered by an error. -/
def failingMetrics : Backend :=
  { allocate := none
    fail := fun op =>
      match op with
      | Op.getLayoutMetrics => some (GoError.other "layout metrics unavailable")
      | _ => none
    contentSize := { x := 0, y := 0, width := 500.5, height := 300 }
    image := fun _ => [0xFF, 0xD8, 0xFF, 0xD9]
    events := [Step.deliver (Event.lifecycle "networkIdle")] }

/-- A backend that refuses the first request, `page.Enable`. -/
def refusingEnable : Backend :=
  { allocate := none
    fail := fun op =>
      match op with
      | Op.pageEnable => some (GoError.other "page domain unavailable")
      | _ => none
    contentSize := { x := 0, y := 0, width := 500.5, height := 300 }
    image := fun _ => [0xFF, 0xD8, 0xFF, 0xD9]
    events := [Step.deliver (Event.lifecycle "networkIdle")] }

/-- A file system that already holds `out.jpg`. -/
def oldFiles : FileSystem := fun n =>
  if n = "out.jpg" then some { data := [1, 2, 3], perm := 0o644 } else none

/-! ## Lemmas on the waiter -/

theorem run_cons (eventName : String) (s : WaitState) (st : Step) (rest : List Step) :
    run eventName s (st :: rest) = run eventName (step eventName s st) rest := rfl

theorem run_append (eventName : String) (s : WaitState) (pre post : List Step) :
    run eventName s (pre ++ post) = run eventName (run eventName s pre) post := by
  simp [run, List.foldl_append]

/-- The invariant of the waiter's variables. -/
structure WaitInv (eventName : String) (s : WaitState) : Prop where
  noPanic : s.panicked = false
  closes : s.closeCalls = if s.chClosed then 1 else 0
  matched : s.invoked.count (Event.lifecycle eventName) = s.closeCalls
  closedDone : s.chClosed = true → s.cctxErr ≠ none
  outerDone : s.ctxErr ≠ none → s.cctxErr ≠ none

theorem waitInv_init (eventName : String) : WaitInv eventName WaitState.init := by
  constructor <;> simp [WaitState.init]

theorem dispatch_of_done (eventName : String) (ev : Event) (s : WaitState)
    (h : s.cctxErr ≠ none) : dispatch eventName ev s = s := by
  unfold dispatch
  cases hc : s.cctxErr with
  | none => exact absurd hc h
  | some c => rfl

theorem waitInv_step (eventName : String) (s : WaitState) (st : Step)
    (h : WaitInv eventName s) : WaitInv eventName (step eventName s st) := by
  obtain ⟨h1, h2, h3, h4, h5⟩ := h
  cases st with
  | deliver ev =>
    cases hc : s.cctxErr with
    | some c =>
      have : dispatch eventName ev s = s := dispatch_of_done eventName ev s (by simp [hc])
      simp only [step, this]
      exact ⟨h1, h2, h3, h4, h5⟩
    | none =>
      have hopen : s.chClosed = false := by
        cases hcl : s.chClosed with
        | false => rfl
        | true => exact absurd hc (h4 hcl)
      have hcalls : s.closeCalls = 0 := by simpa [hopen] using h2
      have hcount : s.invoked.count (Event.lifecycle eventName) = 0 := by omega
      have houter : s.ctxErr = none := by
        by_contra hne
        exact h5 hne hc
      cases ev with
      | other m =>
        constructor <;>
          simp [step, dispatch, listener, hc, h1, hopen, hcalls, hcount, houter]
      | lifecycle name =>
        by_cases hn : name = eventName
        · subst hn
          constructor <;>
            simp [step, dispatch, listener, cancel, closeCh, hc, h1, hopen, hcalls,
              hcount, houter]
        · have hne : Event.lifecycle name ≠ Event.lifecycle eventName := by
            intro hh
            exact hn (Event.lifecycle.inj hh)
          constructor <;>
            simp [step, dispatch, listener, hc, h1, hopen, hcalls, hcount, houter, hn,
              hne, List.count_cons]
  | elapse d =>
    cases hc : s.cctxErr with
    | some c =>
      constructor <;> simp_all [step, advance]
    | none =>
      have hopen : s.chClosed = false := by
        cases hcl : s.chClosed with
        | false => rfl
        | true => exact absurd hc (h4 hcl)
      have houter : s.ctxErr = none := by
        by_contra hne
        exact h5 hne hc
      by_cases ht : waitTimeout ≤ s.elapsed + d
      · constructor <;> simp [step, advance, hc, ht, h1, hopen, houter] <;> simp_all
      · constructor <;> simp [step, advance, hc, ht, h1, hopen, houter] <;> simp_all
  | outerDone e =>
    cases ho : s.ctxErr with
    | some o =>
      constructor <;> simp_all [step, endOuter]
    | none =>
      cases hc : s.cctxErr with
      | some c => constructor <;> simp_all [step, endOuter]
      | none => constructor <;> simp_all [step, endOuter]

theorem waitInv_run (eventName : String) (trace : List Step) (s : WaitState)
    (h : WaitInv eventName s) : WaitInv eventName (run eventName s trace) := by
  induction trace generalizing s with
  | nil => exact h
  | cons st rest ih => exact ih _ (waitInv_step eventName s st h)

theorem chClosed_step (eventName : String) (s : WaitState) (st : Step)
    (h : s.chClosed = true) : (step eventName s st).chClosed = true := by
  cases st with
  | deliver ev =>
    cases hc : s.cctxErr with
    | some c => simp [step, dispatch, hc, h]
    | none =>
      cases ev with
      | other m => simp [step, dispatch, listener, hc, h]
      | lifecycle name =>
        by_cases hn : name = eventName <;>
          simp [step, dispatch, listener, cancel, closeCh, hc, h, hn]
  | elapse d =>
    cases hc : s.cctxErr with
    | some c => simp [step, advance, hc, h]
    | none =>
      by_cases ht : waitTimeout ≤ s.elapsed + d <;> simp [step, advance, hc, ht, h]
  | outerDone e =>
    cases ho : s.ctxErr with
    | some o => simp [step, endOuter, ho, h]
    | none => simp [step, endOuter, ho, h]

theorem ctxErr_step (eventName : String) (s : WaitState) (st : Step)
    (h : s.ctxErr ≠ none) : (step eventName s st).ctxErr ≠ none := by
  cases st with
  | deliver ev =>
    cases hc : s.cctxErr with
    | some c => simpa [step, dispatch, hc] using h
    | none =>
      cases ev with
      | other m => simpa [step, dispatch, listener, hc] using h
      | lifecycle name =>
        by_cases hn : name = eventName
        · by_cases hcl : s.chClosed = true <;>
            simpa [step, dispatch, listener, cancel, closeCh, hc, hn, hcl] using h
        · simpa [step, dispatch, listener, hc, hn] using h
  | elapse d =>
    cases hc : s.cctxErr with
    | some c => simpa [step, advance, hc] using h
    | none =>
      by_cases ht : waitTimeout ≤ s.elapsed + d <;>
        simpa [step, advance, hc, ht] using h
  | outerDone e =>
    cases ho : s.ctxErr with
    | some o => simp [step, endOuter, ho]
    | none => exact absurd ho h

/-- A `select` that is ready stays ready whatever the environment does next. -/
theorem selectNow_step (eventName : String) (s : WaitState) (st : Step)
    (h : selectNow (step eventName s st) = none) : selectNow s = none := by
  by_contra hs
  cases hcl : s.chClosed with
  | true =>
    have := chClosed_step eventName s st hcl
    simp [selectNow, this] at h
  | false =>
    cases ho : s.ctxErr with
    | none => simp [selectNow, hcl, ho] at hs
    | some o =>
      have hne := ctxErr_step eventName s st (by simp [ho])
      cases hcl2 : (step eventName s st).chClosed with
      | true => simp [selectNow, hcl2] at h
      | false =>
        cases ho2 : (step eventName s st).ctxErr with
        | none => exact hne ho2
        | some o2 => simp [selectNow, hcl2, ho2] at h

theorem selectNow_run (eventName : String) (pre : List Step) (s : WaitState)
    (h : selectNow (run eventName s pre) = none) : selectNow s = none := by
  induction pre generalizing s with
  | nil => exact h
  | cons st rest ih => exact selectNow_step eventName s st (ih _ h)

/-- While no case of the `select` is ready the call follows the environment. -/
theorem waitLoop_append (eventName : String) (pre post : List Step) (s : WaitState)
    (h : selectNow (run eventName s pre) = none) :
    waitLoop eventName s (pre ++ post) = waitLoop eventName (run eventName s pre) post := by
  induction pre generalizing s with
  | nil => rfl
  | cons st rest ih =>
    have hs : selectNow s = none := selectNow_run eventName (st :: rest) s h
    have hrest := ih (step eventName s st) h
    simpa [waitLoop, hs] using hrest

theorem waitLoop_ready (eventName : String) (s : WaitState) (trace : List Step)
    (r : Option GoError) (h : selectNow s = some r) :
    waitLoop eventName s trace = Wait.returned r := by
  cases trace <;> simp [waitLoop, h]

/-- Only a matching lifecycle event dispatched to a live listener closes `ch`. -/
theorem closes_only_on_match (eventName : String) (s : WaitState) (st : Step)
    (h0 : s.chClosed = false) (h1 : (step eventName s st).chClosed = true) :
    st = Step.deliver (Event.lifecycle eventName) ∧ s.cctxErr = none := by
  cases st with
  | deliver ev =>
    cases hc : s.cctxErr with
    | some c => simp [step, dispatch, hc, h0] at h1
    | none =>
      cases ev with
      | other m => simp [step, dispatch, listener, hc, h0] at h1
      | lifecycle name =>
        by_cases hn : name = eventName
        · simp [hn]
        · simp [step, dispatch, listener, hc, h0, hn] at h1
  | elapse d =>
    cases hc : s.cctxErr with
    | some c => simp [step, advance, hc, h0] at h1
    | none =>
      by_cases ht : waitTimeout ≤ s.elapsed + d <;>
        simp [step, advance, hc, ht, h0] at h1
  | outerDone e =>
    cases ho : s.ctxErr with
    | some o => simp [step, endOuter, ho, h0] at h1
    | none => simp [step, endOuter, ho, h0] at h1

theorem waitLoop_nil_match (eventName : String) (trace : List Step) (s : WaitState)
    (h0 : s.chClosed = false) (h : waitLoop eventName s trace = Wait.returned none) :
    ∃ pre post, trace = pre ++ Step.deliver (Event.lifecycle eventName) :: post ∧
      (run eventName s pre).cctxErr = none ∧ (run eventName s pre).chClosed = false := by
  induction trace generalizing s with
  | nil =>
    cases ho : s.ctxErr <;> simp [waitLoop, selectNow, h0, ho] at h
  | cons st rest ih =>
    cases ho : s.ctxErr with
    | some o => simp [waitLoop, selectNow, h0, ho] at h
    | none =>
      have h2 : waitLoop eventName (step eventName s st) rest = Wait.returned none := by
        simpa [waitLoop, selectNow, h0, ho] using h
      cases hcl : (step eventName s st).chClosed with
      | true =>
        obtain ⟨hst, hc⟩ := closes_only_on_match eventName s st h0 hcl
        exact ⟨[], rest, by simp [hst], by simpa [run] using hc, by simpa [run] using h0⟩
      | false =>
        obtain ⟨pre, post, ht, hc, hcl2⟩ := ih _ hcl h2
        exact ⟨st :: pre, post, by simp [ht], by simpa [run_cons] using hc,
          by simpa [run_cons] using hcl2⟩

/-- Without a termination of the outer context and without a matching lifecycle event
the call never returns, however much time passes. -/
theorem waitLoop_quiet (eventName : String) (trace : List Step) (s : WaitState)
    (h0 : selectNow s = none)
    (hctx : ∀ e, Step.outerDone e ∉ trace)
    (hev : Step.deliver (Event.lifecycle eventName) ∉ trace) :
    waitLoop eventName s trace = Wait.blocked := by
  induction trace generalizing s with
  | nil => simp [waitLoop, h0]
  | cons st rest ih =>
    have hcl : s.chClosed = false := by
      cases hh : s.chClosed with
      | false => rfl
      | true => simp [selectNow, hh] at h0
    have ho : s.ctxErr = none := by
      cases hh : s.ctxErr with
      | none => rfl
      | some o => simp [selectNow, hcl, hh] at h0
    have hnext : selectNow (step eventName s st) = none := by
      cases hcl2 : (step eventName s st).chClosed with
      | true =>
        obtain ⟨hst, _⟩ := closes_only_on_match eventName s st hcl hcl2
        exact absurd (by simp [hst]) hev
      | false =>
        cases st with
        | outerDone e => exact absurd (by simp) (hctx e)
        | deliver ev =>
          have : (step eventName s (Step.deliver ev)).ctxErr = none := by
            cases hc : s.cctxErr with
            | some c => simpa [step, dispatch, hc] using ho
            | none =>
              cases ev with
              | other m => simpa [step, dispatch, listener, hc] using ho
              | lifecycle name =>
                by_cases hn : name = eventName
                · simpa [step, dispatch, listener, cancel, closeCh, hc, hn, hcl] using ho
                · simpa [step, dispatch, listener, hc, hn] using ho
          simp [selectNow, hcl2, this]
        | elapse d =>
          have : (step eventName s (Step.elapse d)).ctxErr = none := by
            cases hc : s.cctxErr with
            | some c => simpa [step, advance, hc] using ho
            | none =>
              by_cases ht : waitTimeout ≤ s.elapsed + d <;>
                simpa [step, advance, hc, ht] using ho
          simp [selectNow, hcl2, this]
    have := ih (step eventName s st) hnext
      (fun e he => hctx e (List.mem_cons_of_mem _ he))
      (fun he => hev (List.mem_cons_of_mem _ he))
    simpa [waitLoop, h0] using this

/-- One environment step never makes both cases of the `select` ready at once. -/
theorem select_no_tie (eventName : String) (s : WaitState) (st : Step)
    (h : selectNow s = none) :
    ¬ ((step eventName s st).chClosed = true ∧ (step eventName s st).ctxErr ≠ none) := by
  have hcl : s.chClosed = false := by
    cases hh : s.chClosed with
    | false => rfl
    | true => simp [selectNow, hh] at h
  have ho : s.ctxErr = none := by
    cases hh : s.ctxErr with
    | none => rfl
    | some o => simp [selectNow, hcl, hh] at h
  rintro ⟨h1, h2⟩
  obtain ⟨hst, hc⟩ := closes_only_on_match eventName s st hcl h1
  subst hst
  apply h2
  simp [step, dispatch, listener, cancel, closeCh, hc, hcl, ho]

/-- Once the outer context has ended with `ch` still open, nothing changes that: the
listener is gone, `ch` stays open and `ctx.Err()` stays what it is. -/
theorem outer_done_stable (eventName : String) (trace : List Step) (s : WaitState)
    (e : GoError) (hcl : s.chClosed = false) (hc : s.cctxErr ≠ none)
    (ho : s.ctxErr = some e) :
    (run eventName s trace).chClosed = false ∧ (run eventName s trace).ctxErr = some e := by
  induction trace generalizing s with
  | nil => exact ⟨hcl, ho⟩
  | cons st rest ih =>
    rw [run_cons]
    cases hcc : s.cctxErr with
    | none => exact absurd hcc hc
    | some c =>
      cases st with
      | deliver ev =>
        have hd : step eventName s (Step.deliver ev) = s := dispatch_of_done eventName ev s hc
        rw [hd]
        exact ih s hcl hc ho
      | elapse d =>
        apply ih
        · simpa [step, advance, hcc] using hcl
        · simp [step, advance, hcc]
        · simpa [step, advance, hcc] using ho
      | outerDone e2 =>
        have hd : step eventName s (Step.outerDone e2) = s := by
          simp [step, endOuter, ho]
        rw [hd]
        exact ih s hcl hc ho

/-! ## Lemmas on the task list -/

/-- Every run of the task list: the log is the first `k + 1` operations of `allOps`, the
first `k` of them succeeded, and the run gives what the last one gave. -/
theorem fullScreenshot_run (url : String) (quality : Int) (b : Backend) :
    ∃ k, k < 9 ∧
      (tasksDo (fullScreenshot url quality) b TaskState.init).2.log =
        (allOps url quality b.contentSize).take (k + 1) ∧
      (∀ op ∈ (allOps url quality b.contentSize).take k, reply b op = Wait.returned none) ∧
      (∀ last, (allOps url quality b.contentSize)[k]? = some last →
        (tasksDo (fullScreenshot url quality) b TaskState.init).1 = reply b last) ∧
      ((tasksDo (fullScreenshot url quality) b TaskState.init).1 = Wait.returned none → k = 8) ∧
      (tasksDo (fullScreenshot url quality) b TaskState.init).2.res =
        if (tasksDo (fullScreenshot url quality) b TaskState.init).1 = Wait.returned none then
          b.image (Op.captureScreenshot CaptureScreenshotFormat.jpeg quality
            { x := b.contentSize.x, y := b.contentSize.y, width := b.contentSize.width,
              height := b.contentSize.height, scale := 1 })
        else [] := by
  cases h1 : b.fail (Op.pageEnable) with
  | some e =>
    refine ⟨0, by norm_num, ?_, ?_, ?_, ?_, ?_⟩ <;>
      simp [tasksDo, fullScreenshot, enableLifeCycleEvents, libraryAction,
          navigateAndWaitFor, measureAndCapture, request, TaskState.init, allOps, reply, h1]
  | none =>
    cases h2 : b.fail (Op.setLifecycleEventsEnabled true) with
    | some e =>
      refine ⟨1, by norm_num, ?_, ?_, ?_, ?_, ?_⟩ <;>
        simp [tasksDo, fullScreenshot, enableLifeCycleEvents, libraryAction,
            navigateAndWaitFor, measureAndCapture, request, TaskState.init, allOps, reply, h1, h2]
    | none =>
      cases h3 : b.fail (Op.emulate "iPad") with
      | some e =>
        refine ⟨2, by norm_num, ?_, ?_, ?_, ?_, ?_⟩ <;>
          simp [tasksDo, fullScreenshot, enableLifeCycleEvents, libraryAction,
              navigateAndWaitFor, measureAndCapture, request, TaskState.init, allOps, reply, h1, h2, h3]
      | none =>
        cases h4 : b.fail (Op.emulateViewport 1024 768 2) with
        | some e =>
          refine ⟨3, by norm_num, ?_, ?_, ?_, ?_, ?_⟩ <;>
            simp [tasksDo, fullScreenshot, enableLifeCycleEvents, libraryAction,
                navigateAndWaitFor, measureAndCapture, request, TaskState.init, allOps, reply, h1, h2, h3, h4]
        | none =>
          cases h5 : b.fail (Op.navigate url) with
          | some e =>
            refine ⟨4, by norm_num, ?_, ?_, ?_, ?_, ?_⟩ <;>
              simp [tasksDo, fullScreenshot, enableLifeCycleEvents, libraryAction,
                  navigateAndWaitFor, measureAndCapture, request, TaskState.init, allOps, reply, h1, h2, h3, h4, h5]
          | none =>
            cases h6 : waitFor "networkIdle" b.events with
            | blocked =>
              refine ⟨5, by norm_num, ?_, ?_, ?_, ?_, ?_⟩ <;>
                simp [tasksDo, fullScreenshot, enableLifeCycleEvents, libraryAction,
                    navigateAndWaitFor, measureAndCapture, request, TaskState.init, allOps, reply, h1, h2, h3, h4, h5, h6]
            | returned r =>
              cases r with
              | some e =>
                refine ⟨5, by norm_num, ?_, ?_, ?_, ?_, ?_⟩ <;>
                  simp [tasksDo, fullScreenshot, enableLifeCycleEvents, libraryAction,
                      navigateAndWaitFor, measureAndCapture, request, TaskState.init, allOps, reply, h1, h2, h3, h4, h5, h6]
              | none =>
                cases h7 : b.fail (Op.getLayoutMetrics) with
                | some e =>
                  refine ⟨6, by norm_num, ?_, ?_, ?_, ?_, ?_⟩ <;>
                    simp [tasksDo, fullScreenshot, enableLifeCycleEvents, libraryAction,
                        navigateAndWaitFor, measureAndCapture, request, TaskState.init, allOps, reply, h1, h2, h3, h4, h5, h6, h7]
                | none =>
                  cases h8 : b.fail (Op.setDeviceMetricsOverride (int64 (mathCeil b.contentSize.width))
        (int64 (mathCeil b.contentSize.height)) 1 false
        { type := OrientationType.landscapePrimary, angle := 0 }) with
                  | some e =>
                    refine ⟨7, by norm_num, ?_, ?_, ?_, ?_, ?_⟩ <;>
                      simp [tasksDo, fullScreenshot, enableLifeCycleEvents, libraryAction,
                          navigateAndWaitFor, measureAndCapture, request, TaskState.init, allOps, reply, h1, h2, h3, h4, h5, h6, h7, h8]
                  | none =>
                    cases h9 : b.fail (Op.captureScreenshot CaptureScreenshotFormat.jpeg quality
        { x := b.contentSize.x, y := b.contentSize.y, width := b.contentSize.width,
          height := b.contentSize.height, scale := 1 }) with
                    | some e =>
                      refine ⟨8, by norm_num, ?_, ?_, ?_, ?_, ?_⟩ <;>
                        simp [tasksDo, fullScreenshot, enableLifeCycleEvents, libraryAction,
                            navigateAndWaitFor, measureAndCapture, request, TaskState.init, allOps, reply, h1, h2, h3, h4, h5, h6, h7, h8, h9]
                    | none =>
                      refine ⟨8, by norm_num, ?_, ?_, ?_, ?_, ?_⟩ <;>
                        simp [tasksDo, fullScreenshot, enableLifeCycleEvents, libraryAction,
                            navigateAndWaitFor, measureAndCapture, request, TaskState.init, allOps, reply, h1, h2, h3, h4, h5, h6, h7, h8, h9]

theorem allOps_length (url : String) (quality : Int) (cs : Rect) :
    (allOps url quality cs).length = 9 := rfl

theorem allOps_kind (url : String) (quality : Int) (cs : Rect) :
    (allOps url quality cs).map Op.kind = fixedOrder.map some := by
  simp [allOps, Op.kind, fixedOrder]

/-- The conversion after `math.Ceil` gives the ceiling whenever it fits `int64`. -/
theorem int64_mathCeil (x : ℚ) (hlo : -(2 : Int) ^ 63 ≤ ⌈x⌉) (hhi : ⌈x⌉ < (2 : Int) ^ 63) :
    int64 (mathCeil x) = ⌈x⌉ := by
  unfold int64 mathCeil
  have h1 : ⌊((⌈x⌉ : Int) : ℚ)⌋ = ⌈x⌉ := Int.floor_intCast _
  have h2 : ⌈((⌈x⌉ : Int) : ℚ)⌉ = ⌈x⌉ := Int.ceil_intCast _
  simp only [h1, h2, ite_self]
  rw [if_pos ⟨hlo, hhi⟩]

/-- The run stops at the first operation of `allOps` that does not succeed, or at the
ninth: it has then issued exactly the operations up to that one and gives what that one
gave. -/
theorem fullScreenshot_stops (url : String) (quality : Int) (b : Backend) (k : Nat)
    (op : Op) (hop : (allOps url quality b.contentSize)[k]? = some op)
    (hprev : ∀ prev ∈ (allOps url quality b.contentSize).take k,
      reply b prev = Wait.returned none)
    (hstop : reply b op ≠ Wait.returned none ∨ k = 8) :
    (tasksDo (fullScreenshot url quality) b TaskState.init).1 = reply b op ∧
    (tasksDo (fullScreenshot url quality) b TaskState.init).2.log =
      (allOps url quality b.contentSize).take (k + 1) := by
  obtain ⟨n, hn, hlog, hpre, hlast, hok, _⟩ := fullScreenshot_run url quality b
  have hk9 : k < 9 := by
    have := (List.getElem?_eq_some.mp hop).1
    rw [allOps_length] at this
    exact this
  have hnk : n = k := by
    rcases Nat.lt_trichotomy n k with hlt | heq | hgt
    · exfalso
      have hnl : n < (allOps url quality b.contentSize).length := by
        rw [allOps_length]
        exact hn
      have hget : (allOps url quality b.contentSize)[n]? =
          some ((allOps url quality b.contentSize).get ⟨n, hnl⟩) :=
        List.getElem?_eq_getElem hnl
      have hmem : (allOps url quality b.contentSize).get ⟨n, hnl⟩ ∈
          (allOps url quality b.contentSize).take k := by
        apply List.getElem?_mem
        rw [List.getElem?_take_of_lt hlt]
        exact hget
      have h1 := hlast _ hget
      rw [hprev _ hmem] at h1
      have := hok h1
      omega
    · exact heq
    · exfalso
      have hmem : op ∈ (allOps url quality b.contentSize).take n := by
        apply List.getElem?_mem
        rw [List.getElem?_take_of_lt hgt]
        exact hop
      have h1 := hpre op hmem
      rcases hstop with h | h
      · exact h h1
      · omega
  subst hnk
  exact ⟨hlast op hop, hlog⟩

/-- When every issued operation other than the capture succeeded, all nine operations
were issued and the run gives what the capture gave. -/
theorem run_of_prior_capture (url : String) (quality : Int) (b : Backend)
    (hprior : ∀ op ∈ (tasksDo (fullScreenshot url quality) b TaskState.init).2.log,
      op.kind ≠ some OpKind.screenshotCapture → reply b op = Wait.returned none) :
    (tasksDo (fullScreenshot url quality) b TaskState.init).2.log =
      allOps url quality b.contentSize ∧
    (tasksDo (fullScreenshot url quality) b TaskState.init).1 =
      Wait.returned (b.fail (Op.captureScreenshot CaptureScreenshotFormat.jpeg quality
        { x := b.contentSize.x, y := b.contentSize.y, width := b.contentSize.width,
          height := b.contentSize.height, scale := 1 })) := by
  obtain ⟨n, hn, hlog, hpre, hlast, hok, hres⟩ := fullScreenshot_run url quality b
  rw [hlog] at hprior
  have hn8 : n = 8 := by
    by_contra hne
    have hlt : n < 8 := by omega
    clear hres hpre hlog
    interval_cases n <;>
      simp [allOps, Op.kind] at hprior hlast <;>
      simp [hprior] at hlast <;>
      exact absurd (hok hlast) (by omega)
  subst hn8
  refine ⟨?_, ?_⟩
  · rw [hlog]
    simp [allOps]
  · have h := hlast (Op.captureScreenshot CaptureScreenshotFormat.jpeg quality
      { x := b.contentSize.x, y := b.contentSize.y, width := b.contentSize.width,
        height := b.contentSize.height, scale := 1 }) (by simp [allOps])
    rw [h]
    simp [reply]

/-- When every issued operation other than the override and the capture succeeded, the
override was issued, once, with the converted ceilings of the measured size. -/
theorem run_of_prior_override (url : String) (quality : Int) (b : Backend)
    (hprior : ∀ op ∈ (tasksDo (fullScreenshot url quality) b TaskState.init).2.log,
      op.kind ≠ some OpKind.deviceMetricsOverride →
      op.kind ≠ some OpKind.screenshotCapture → reply b op = Wait.returned none) :
    (tasksDo (fullScreenshot url quality) b TaskState.init).2.log.filter
        (fun op => decide (op.kind = some OpKind.deviceMetricsOverride)) =
      [Op.setDeviceMetricsOverride (int64 (mathCeil b.contentSize.width))
        (int64 (mathCeil b.contentSize.height)) 1 false
        { type := OrientationType.landscapePrimary, angle := 0 }] := by
  obtain ⟨n, hn, hlog, hpre, hlast, hok, hres⟩ := fullScreenshot_run url quality b
  rw [hlog] at hprior
  have hn7 : 7 ≤ n := by
    by_contra hne
    have hlt : n < 7 := by omega
    clear hres hpre hlog
    interval_cases n <;>
      simp [allOps, Op.kind] at hprior hlast <;>
      simp [hprior] at hlast <;>
      exact absurd (hok hlast) (by omega)
  rw [hlog]
  clear hres hpre hlog hprior hlast hok
  interval_cases n <;> simp [allOps, Op.kind]

/-- A run that succeeds leaves the bytes of the capture in the buffer. -/
theorem run_res (url : String) (quality : Int) (b : Backend)
    (h : (tasksDo (fullScreenshot url quality) b TaskState.init).1 = Wait.returned none) :
    (tasksDo (fullScreenshot url quality) b TaskState.init).2.res =
      b.image (Op.captureScreenshot CaptureScreenshotFormat.jpeg quality
        { x := b.contentSize.x, y := b.contentSize.y, width := b.contentSize.width,
          height := b.contentSize.height, scale := 1 }) := by
  obtain ⟨n, _, _, _, _, _, hres⟩ := fullScreenshot_run url quality b
  rw [hres, if_pos h]

/-- The run with session creation: it succeeds only if the task list did. -/
theorem chromedpRun_ok (actions : List Action) (b : Backend) (s : TaskState)
    (h : (chromedpRun actions b s).1 = Wait.returned none) :
    chromedpRun actions b s = tasksDo actions b s := by
  unfold chromedpRun at h ⊢
  cases ha : b.allocate with
  | none => rfl
  | some err => simp [ha] at h

/-! ## The waiter: timeout, cancellation, success, single close -/

/-- C1 (the code departs from the claim): for every target event name and every trace
that holds no termination of the outer context and no lifecycle event with that name,
`waitFor` is still blocked at the end of the trace, however much time has elapsed: the
60-second deadline ends only the derived context, which the `select` does not read, so
no deadline-exceeded error is ever returned. -/
theorem waitFor_blocks_past_timeout (eventName : String) (trace : List Step)
    (hctx : ∀ e, Step.outerDone e ∉ trace)
    (hev : Step.deliver (Event.lifecycle eventName) ∉ trace) :
    waitFor eventName trace = Wait.blocked :=
  waitLoop_quiet eventName trace WaitState.init (by decide) hctx hev

/-- C1 at a concrete input: 61 seconds pass while only a `load` event is seen; the
derived context has ended with deadline exceeded, and the call is still blocked. -/
theorem waitFor_blocks_past_timeout_witness :
    waitFor "networkIdle"
        [Step.elapse waitTimeout, Step.deliver (Event.lifecycle "load"),
          Step.elapse 1000000000] = Wait.blocked ∧
      (run "networkIdle" WaitState.init
        [Step.elapse waitTimeout, Step.deliver (Event.lifecycle "load"),
          Step.elapse 1000000000]).cctxErr = some GoError.deadlineExceeded ∧
      (run "networkIdle" WaitState.init
        [Step.elapse waitTimeout, Step.deliver (Event.lifecycle "load"),
          Step.elapse 1000000000]).elapsed = 61000000000 :=
  ⟨waitFor_blocks_past_timeout "networkIdle"
      [Step.elapse waitTimeout, Step.deliver (Event.lifecycle "load"),
        Step.elapse 1000000000] (fun e => by simp) (by decide),
    by decide, by decide⟩

/-- C2: for every target event name, if the outer context is cancelled at a point where
it was still live and no lifecycle event with that name had been delivered to the
listener, `waitFor` returns the cancellation error `context.Canceled`, whatever time
has elapsed before and whatever follows; it does not return deadline exceeded; and
however late the `select` is evaluated afterwards, its only ready case gives
`context.Canceled`. -/
theorem waitFor_outer_cancel (eventName : String) (pre post : List Step)
    (hlive : (run eventName WaitState.init pre).ctxErr = none)
    (hnone : Event.lifecycle eventName ∉ (run eventName WaitState.init pre).invoked) :
    waitFor eventName (pre ++ Step.outerDone GoError.canceled :: post) =
        Wait.returned (some GoError.canceled) ∧
      waitFor eventName (pre ++ Step.outerDone GoError.canceled :: post) ≠
        Wait.returned (some GoError.deadlineExceeded) ∧
      selectNow (run eventName WaitState.init
        (pre ++ Step.outerDone GoError.canceled :: post)) =
        some (some GoError.canceled) := by
  have hinv := waitInv_run eventName pre WaitState.init (waitInv_init eventName)
  have hcount : (run eventName WaitState.init pre).invoked.count
      (Event.lifecycle eventName) = 0 := List.count_eq_zero.mpr hnone
  have hopen : (run eventName WaitState.init pre).chClosed = false := by
    cases hcl : (run eventName WaitState.init pre).chClosed with
    | false => rfl
    | true =>
      have h2 := hinv.closes
      have h3 := hinv.matched
      rw [hcl] at h2
      simp only [if_true] at h2
      omega
  have hsel : selectNow (run eventName WaitState.init pre) = none := by
    simp [selectNow, hopen, hlive]
  have hafter : selectNow (step eventName (run eventName WaitState.init pre)
      (Step.outerDone GoError.canceled)) = some (some GoError.canceled) := by
    simp [selectNow, step, endOuter, hopen, hlive]
  have hret : waitFor eventName (pre ++ Step.outerDone GoError.canceled :: post) =
      Wait.returned (some GoError.canceled) := by
    unfold waitFor
    rw [waitLoop_append eventName pre _ WaitState.init hsel]
    simp only [waitLoop, hsel]
    exact waitLoop_ready eventName _ post _ hafter
  refine ⟨hret, ?_, ?_⟩
  · rw [hret]
    decide
  · rw [run_append, run_cons]
    have hst := outer_done_stable eventName post
      (step eventName (run eventName WaitState.init pre) (Step.outerDone GoError.canceled))
      GoError.canceled (by simp [step, endOuter, hopen, hlive])
      (by
        cases hcc : (run eventName WaitState.init pre).cctxErr <;>
          simp [step, endOuter, hlive, hcc])
      (by simp [step, endOuter, hlive])
    simp [selectNow, hst.1, hst.2]

/-- C2 at a concrete input: the local 60 seconds have passed, a `networkIdle` event
arrives too late to reach the listener, then the outer context is cancelled: the call
gives `context.Canceled`. -/
theorem waitFor_outer_cancel_witness :
    waitFor "networkIdle"
        ([Step.elapse waitTimeout, Step.deliver (Event.lifecycle "networkIdle")] ++
          Step.outerDone GoError.canceled :: [Step.elapse 1]) =
        Wait.returned (some GoError.canceled) ∧
      waitFor "networkIdle"
        ([Step.elapse waitTimeout, Step.deliver (Event.lifecycle "networkIdle")] ++
          Step.outerDone GoError.canceled :: [Step.elapse 1]) ≠
        Wait.returned (some GoError.deadlineExceeded) ∧
      selectNow (run "networkIdle" WaitState.init
        ([Step.elapse waitTimeout, Step.deliver (Event.lifecycle "networkIdle")] ++
          Step.outerDone GoError.canceled :: [Step.elapse 1])) =
        some (some GoError.canceled) :=
  waitFor_outer_cancel "networkIdle"
    [Step.elapse waitTimeout, Step.deliver (Event.lifecycle "networkIdle")]
    [Step.elapse 1] (by decide) (by decide)

/-- C3: if `waitFor` returns `nil`, then the trace holds a lifecycle event whose name
equals the target name exactly, delivered at a point where the derived 60-second context
was still live; and dispatching a notification of another type or with another name
never changes whether the completion channel is closed. -/
theorem waitFor_nil_only_on_match (eventName : String) (trace : List Step)
    (h : waitFor eventName trace = Wait.returned none) :
    (∃ pre post, trace = pre ++ Step.deliver (Event.lifecycle eventName) :: post ∧
      (run eventName WaitState.init pre).cctxErr = none) ∧
    (∀ (s : WaitState) (ev : Event), ev ≠ Event.lifecycle eventName →
      (dispatch eventName ev s).chClosed = s.chClosed) := by
  constructor
  · obtain ⟨pre, post, ht, hc, _⟩ :=
      waitLoop_nil_match eventName trace WaitState.init rfl h
    exact ⟨pre, post, ht, hc⟩
  · intro s ev hne
    cases hc : s.cctxErr with
    | some c => simp [dispatch, hc]
    | none =>
      cases ev with
      | other m => simp [dispatch, listener, hc]
      | lifecycle name =>
        have hn : name ≠ eventName := fun hh => hne (by rw [hh])
        simp [dispatch, listener, hc, hn]

/-- C3 at a concrete input: another notification type and a `load` event come first,
then `networkIdle` completes the wait. -/
theorem waitFor_nil_only_on_match_witness :
    (∃ pre post,
      [Step.deliver (Event.other "Page.frameNavigated"),
        Step.deliver (Event.lifecycle "load"),
        Step.deliver (Event.lifecycle "networkIdle")] =
          pre ++ Step.deliver (Event.lifecycle "networkIdle") :: post ∧
      (run "networkIdle" WaitState.init pre).cctxErr = none) ∧
    (∀ (s : WaitState) (ev : Event), ev ≠ Event.lifecycle "networkIdle" →
      (dispatch "networkIdle" ev s).chClosed = s.chClosed) :=
  waitFor_nil_only_on_match "networkIdle"
    [Step.deliver (Event.other "Page.frameNavigated"),
      Step.deliver (Event.lifecycle "load"),
      Step.deliver (Event.lifecycle "networkIdle")] (by decide)

/-- C10: for every target name and every trace, also one that delivers the matching
lifecycle event several times and goes on after the call has returned, `close(ch)` has
been executed at most once and never on a closed channel; the matching branch of the
listener has run exactly as often as `close(ch)`; and a listener whose derived context
is done is not invoked. -/
theorem waitFor_close_at_most_once (eventName : String) (trace : List Step) :
    (run eventName WaitState.init trace).closeCalls ≤ 1 ∧
    (run eventName WaitState.init trace).panicked = false ∧
    (run eventName WaitState.init trace).invoked.count (Event.lifecycle eventName) =
      (run eventName WaitState.init trace).closeCalls ∧
    (∀ (s : WaitState) (ev : Event), s.cctxErr ≠ none → dispatch eventName ev s = s) := by
  have hinv := waitInv_run eventName trace WaitState.init (waitInv_init eventName)
  refine ⟨?_, hinv.noPanic, hinv.matched, fun s ev hs => dispatch_of_done eventName ev s hs⟩
  have h2 := hinv.closes
  split at h2 <;> omega

/-! ## The task list: order, requests, output -/

/-- C4: for every backend, the task list issues at least one operation and the kinds of
the operations issued are a prefix of the fixed order (page enable, lifecycle events
enable, device emulation, viewport emulation, navigate, wait for networkIdle, layout
metrics query, device metrics override, screenshot capture). Over the backend's answers
to the nine operations of `allOps`: if the operation of step `k` is answered by error
`e` and every operation before it is answered by success, the run returns exactly `e`
and has issued exactly the operations of steps `0..k`, none of a later step; if the wait
of step `k` blocks, the run blocks with the same log; if all nine are answered by
success, the run returns `nil` and has issued all nine in the fixed order. -/
theorem fullScreenshot_ordered_fail_fast (url : String) (quality : Int) (b : Backend) :
    (((tasksDo (fullScreenshot url quality) b TaskState.init).2.log.map Op.kind <+:
        fixedOrder.map some) ∧
      (tasksDo (fullScreenshot url quality) b TaskState.init).2.log ≠ []) ∧
    (∀ (k : Nat) (op : Op) (e : GoError),
      (allOps url quality b.contentSize)[k]? = some op →
      (∀ prev ∈ (allOps url quality b.contentSize).take k,
        reply b prev = Wait.returned none) →
      reply b op = Wait.returned (some e) →
      (tasksDo (fullScreenshot url quality) b TaskState.init).1 = Wait.returned (some e) ∧
      (tasksDo (fullScreenshot url quality) b TaskState.init).2.log =
        (allOps url quality b.contentSize).take (k + 1) ∧
      (tasksDo (fullScreenshot url quality) b TaskState.init).2.log.map Op.kind =
        (fixedOrder.take (k + 1)).map some) ∧
    (∀ (k : Nat) (op : Op),
      (allOps url quality b.contentSize)[k]? = some op →
      (∀ prev ∈ (allOps url quality b.contentSize).take k,
        reply b prev = Wait.returned none) →
      reply b op = Wait.blocked →
      (tasksDo (fullScreenshot url quality) b TaskState.init).1 = Wait.blocked ∧
      (tasksDo (fullScreenshot url quality) b TaskState.init).2.log =
        (allOps url quality b.contentSize).take (k + 1)) ∧
    ((∀ op ∈ allOps url quality b.contentSize, reply b op = Wait.returned none) →
      (tasksDo (fullScreenshot url quality) b TaskState.init).1 = Wait.returned none ∧
      (tasksDo (fullScreenshot url quality) b TaskState.init).2.log =
        allOps url quality b.contentSize ∧
      (tasksDo (fullScreenshot url quality) b TaskState.init).2.log.map Op.kind =
        fixedOrder.map some) := by
  refine ⟨⟨?_, ?_⟩, ?_, ?_, ?_⟩
  · obtain ⟨n, _, hlog, _, _, _, _⟩ := fullScreenshot_run url quality b
    rw [hlog, List.map_take, allOps_kind]
    exact List.take_prefix _ _
  · obtain ⟨n, _, hlog, _, _, _, _⟩ := fullScreenshot_run url quality b
    rw [hlog]
    simp [allOps]
  · intro k op e hop hprev hfail
    obtain ⟨hres, hlog⟩ := fullScreenshot_stops url quality b k op hop hprev
      (Or.inl (by rw [hfail]; simp))
    refine ⟨by rw [hres, hfail], hlog, ?_⟩
    rw [hlog, List.map_take, allOps_kind, List.map_take]
  · intro k op hop hprev hblock
    obtain ⟨hres, hlog⟩ := fullScreenshot_stops url quality b k op hop hprev
      (Or.inl (by rw [hblock]; simp))
    exact ⟨by rw [hres, hblock], hlog⟩
  · intro hall
    obtain ⟨hres, hlog⟩ := fullScreenshot_stops url quality b 8
      (Op.captureScreenshot CaptureScreenshotFormat.jpeg quality
        (Viewport.mk b.contentSize.x b.contentSize.y b.contentSize.width
          b.contentSize.height 1))
      (by simp [allOps])
      (fun prev hmem => hall prev (List.mem_of_mem_take hmem)) (Or.inr rfl)
    have hfull : (allOps url quality b.contentSize).take (8 + 1) =
        allOps url quality b.contentSize := by
      simp [allOps]
    rw [hfull] at hlog
    refine ⟨?_, hlog, by rw [hlog, allOps_kind]⟩
    rw [hres]
    exact hall _ (by simp [allOps])

/-- C4 at three concrete backends: one that refuses `page.Enable` (step 0): the run
returns that error after this single request; one that fails the layout metrics query
(step 6): the run returns that error after seven operations, with no override and no
capture; one that accepts everything: the run returns `nil` after all nine. -/
theorem fullScreenshot_ordered_fail_fast_witness :
    ((tasksDo (fullScreenshot "https://example.com" 90) refusingEnable TaskState.init).1 =
        Wait.returned (some (GoError.other "page domain unavailable")) ∧
      (tasksDo (fullScreenshot "https://example.com" 90) refusingEnable TaskState.init).2.log =
        [Op.pageEnable]) ∧
    ((tasksDo (fullScreenshot "https://example.com" 90) failingMetrics TaskState.init).1 =
        Wait.returned (some (GoError.other "layout metrics unavailable")) ∧
      (tasksDo (fullScreenshot "https://example.com" 90) failingMetrics TaskState.init).2.log =
        [Op.pageEnable, Op.setLifecycleEventsEnabled true, Op.emulate "iPad",
          Op.emulateViewport 1024 768 2, Op.navigate "https://example.com",
          Op.waitFor "networkIdle", Op.getLayoutMetrics] ∧
      (tasksDo (fullScreenshot "https://example.com" 90) failingMetrics
          TaskState.init).2.log.map Op.kind =
        [some OpKind.pageEnable, some OpKind.lifecycleEventsEnable,
          some OpKind.deviceEmulation, some OpKind.viewportEmulation, some OpKind.navigate,
          some OpKind.waitNetworkIdle, some OpKind.layoutMetricsQuery]) ∧
    ((tasksDo (fullScreenshot "https://example.com" 90) stubBackend TaskState.init).1 =
        Wait.returned none ∧
      (tasksDo (fullScreenshot "https://example.com" 90) stubBackend
          TaskState.init).2.log.map Op.kind = fixedOrder.map some) := by
  have h0 := (fullScreenshot_ordered_fail_fast "https://example.com" 90 refusingEnable).2.1
    0 Op.pageEnable (GoError.other "page domain unavailable") (by simp [allOps])
    (by simp) (by decide)
  have h6 := (fullScreenshot_ordered_fail_fast "https://example.com" 90 failingMetrics).2.1
    6 Op.getLayoutMetrics (GoError.other "layout metrics unavailable") (by simp [allOps])
    (by simp [allOps, reply, failingMetrics]; decide) (by decide)
  have h9 := (fullScreenshot_ordered_fail_fast "https://example.com" 90 stubBackend).2.2.2
    (by simp [allOps, reply, stubBackend, stubWith]; decide)
  refine ⟨⟨h0.1, ?_⟩, ⟨h6.1, ?_, ?_⟩, ⟨h9.1, h9.2.2⟩⟩
  · rw [h0.2.1]
    simp [allOps]
  · rw [h6.2.1]
    simp [allOps]
  · rw [h6.2.2]
    simp [fixedOrder]

/-- C5: for every content geometry and every quality, when every operation issued
before the capture succeeded, exactly one capture request is issued: format JPEG, the
given quality, clip `{x, y, width, height, scale 1}` with the measured values as they
are; and when the capture succeeds the run succeeds and the buffer holds exactly the
bytes the capture returned. -/
theorem capture_request_clip (url : String) (quality : Int) (b : Backend)
    (hprior : ∀ op ∈ (tasksDo (fullScreenshot url quality) b TaskState.init).2.log,
      op.kind ≠ some OpKind.screenshotCapture → reply b op = Wait.returned none) :
    (tasksDo (fullScreenshot url quality) b TaskState.init).2.log.filter
        (fun op => decide (op.kind = some OpKind.screenshotCapture)) =
      [Op.captureScreenshot CaptureScreenshotFormat.jpeg quality
        { x := b.contentSize.x, y := b.contentSize.y, width := b.contentSize.width,
          height := b.contentSize.height, scale := 1 }] ∧
    (b.fail (Op.captureScreenshot CaptureScreenshotFormat.jpeg quality
        { x := b.contentSize.x, y := b.contentSize.y, width := b.contentSize.width,
          height := b.contentSize.height, scale := 1 }) = none →
      (tasksDo (fullScreenshot url quality) b TaskState.init).1 = Wait.returned none ∧
      (tasksDo (fullScreenshot url quality) b TaskState.init).2.res =
        b.image (Op.captureScreenshot CaptureScreenshotFormat.jpeg quality
          { x := b.contentSize.x, y := b.contentSize.y, width := b.contentSize.width,
            height := b.contentSize.height, scale := 1 })) := by
  obtain ⟨hlog, hres⟩ := run_of_prior_capture url quality b hprior
  refine ⟨?_, ?_⟩
  · rw [hlog]
    simp [allOps, Op.kind]
  · intro hcap
    rw [hcap] at hres
    exact ⟨hres, run_res url quality b hres⟩

/-- C5 at the end-to-end scenario: metrics `{0, 0, 500.5, 300.0}` and quality 90 give
the clip `{0, 0, 500.5, 300.0, scale 1}`, and the buffer holds the stub's bytes. -/
theorem capture_request_clip_witness :
    (tasksDo (fullScreenshot "https://example.com" 90) stubBackend TaskState.init).2.log.filter
        (fun op => decide (op.kind = some OpKind.screenshotCapture)) =
      [Op.captureScreenshot CaptureScreenshotFormat.jpeg 90
        { x := 0, y := 0, width := 500.5, height := 300, scale := 1 }] ∧
    (tasksDo (fullScreenshot "https://example.com" 90) stubBackend TaskState.init).1 =
      Wait.returned none ∧
    (tasksDo (fullScreenshot "https://example.com" 90) stubBackend TaskState.init).2.res =
      [0xFF, 0xD8, 0xFF, 0xD9] :=
  ⟨(capture_request_clip "https://example.com" 90 stubBackend (by decide)).1,
    (capture_request_clip "https://example.com" 90 stubBackend (by decide)).2 rfl⟩

/-- C6 fails as stated: a page that reports the content width `2^63` gets a device
metrics override of width `-2^63`, while the least integer not below the width is
`2^63`: no `int64` holds it. -/
theorem deviceMetricsOverride_overflow :
    (tasksDo (fullScreenshot "https://example.com" 90) hugePage TaskState.init).2.log.filter
        (fun op => decide (op.kind = some OpKind.deviceMetricsOverride)) =
      [Op.setDeviceMetricsOverride (-9223372036854775808) 1 1 false
        { type := OrientationType.landscapePrimary, angle := 0 }] ∧
    (0 : ℚ) ≤ 9223372036854775808 ∧
    ⌈(9223372036854775808 : ℚ)⌉ = 9223372036854775808 := by
  refine ⟨?_, by norm_num, ?_⟩
  · have h := run_of_prior_override "https://example.com" 90 hugePage (by decide)
    have hw : int64 (mathCeil hugePage.contentSize.width) = -9223372036854775808 := by
      decide
    have hh : int64 (mathCeil hugePage.contentSize.height) = 1 := by decide
    rw [hw, hh] at h
    exact h
  · rw [Int.ceil_eq_iff]
    norm_num

/-- C6, amended: for every measured content width `w` and height `h`, non-negative and
with ceilings below `2^63`, when every operation issued before the override succeeded,
exactly one device metrics override is issued, with width `⌈w⌉` and height `⌈h⌉`
(`w ≤ ⌈w⌉ < w + 1`, likewise for `h`), device scale factor 1, mobile false, screen
orientation landscape-primary and angle 0. -/
theorem deviceMetricsOverride_ceiling (url : String) (quality : Int) (b : Backend)
    (hw : 0 ≤ b.contentSize.width) (hh : 0 ≤ b.contentSize.height)
    (hwr : ⌈b.contentSize.width⌉ < (2 : Int) ^ 63)
    (hhr : ⌈b.contentSize.height⌉ < (2 : Int) ^ 63)
    (hprior : ∀ op ∈ (tasksDo (fullScreenshot url quality) b TaskState.init).2.log,
      op.kind ≠ some OpKind.deviceMetricsOverride →
      op.kind ≠ some OpKind.screenshotCapture → reply b op = Wait.returned none) :
    (tasksDo (fullScreenshot url quality) b TaskState.init).2.log.filter
        (fun op => decide (op.kind = some OpKind.deviceMetricsOverride)) =
      [Op.setDeviceMetricsOverride ⌈b.contentSize.width⌉ ⌈b.contentSize.height⌉ 1 false
        { type := OrientationType.landscapePrimary, angle := 0 }] ∧
    (b.contentSize.width ≤ (⌈b.contentSize.width⌉ : ℚ) ∧
      (⌈b.contentSize.width⌉ : ℚ) < b.contentSize.width + 1) ∧
    (b.contentSize.height ≤ (⌈b.contentSize.height⌉ : ℚ) ∧
      (⌈b.contentSize.height⌉ : ℚ) < b.contentSize.height + 1) := by
  have hwlo : -(2 : Int) ^ 63 ≤ ⌈b.contentSize.width⌉ :=
    le_trans (by norm_num) (Int.ceil_nonneg hw)
  have hhlo : -(2 : Int) ^ 63 ≤ ⌈b.contentSize.height⌉ :=
    le_trans (by norm_num) (Int.ceil_nonneg hh)
  have h := run_of_prior_override url quality b hprior
  rw [int64_mathCeil _ hwlo hwr, int64_mathCeil _ hhlo hhr] at h
  exact ⟨h, ⟨Int.le_ceil _, Int.ceil_lt_add_one _⟩, ⟨Int.le_ceil _, Int.ceil_lt_add_one _⟩⟩

/-- C6 (amended) at the end-to-end scenario: a content of 500.5 by 300 gives an override
of 501 by 300, scale factor 1, not mobile, landscape-primary, angle 0. -/
theorem deviceMetricsOverride_ceiling_witness :
    (tasksDo (fullScreenshot "https://example.com" 90) stubBackend TaskState.init).2.log.filter
        (fun op => decide (op.kind = some OpKind.deviceMetricsOverride)) =
      [Op.setDeviceMetricsOverride 501 300 1 false
        { type := OrientationType.landscapePrimary, angle := 0 }] ∧
    (0 : ℚ) ≤ 500.5 ∧ ⌈(500.5 : ℚ)⌉ = 501 := by
  have e1 : ⌈stubBackend.contentSize.width⌉ = 501 := by
    show ⌈(500.5 : ℚ)⌉ = 501
    rw [Int.ceil_eq_iff]
    norm_num
  have e2 : ⌈stubBackend.contentSize.height⌉ = 300 := by
    show ⌈(300 : ℚ)⌉ = 300
    rw [Int.ceil_eq_iff]
    norm_num
  have h := deviceMetricsOverride_ceiling "https://example.com" 90 stubBackend
    (by show (0 : ℚ) ≤ 500.5; norm_num) (by show (0 : ℚ) ≤ 300; norm_num)
    (by rw [e1]; norm_num) (by rw [e2]; norm_num) (by decide)
  rw [e1, e2] at h
  exact ⟨h.1, by norm_num, e1⟩

/-- C7 fails as stated: a quality of 150 passed to `fullScreenshot` is recorded as 150
in the capture request, outside `[0, 100]`; a quality of -5 is recorded as -5. -/
theorem capture_quality_not_clamped :
    (tasksDo (fullScreenshot "https://example.com" 150) stubBackend TaskState.init).2.log.filter
        (fun op => decide (op.kind = some OpKind.screenshotCapture)) =
      [Op.captureScreenshot CaptureScreenshotFormat.jpeg 150
        { x := 0, y := 0, width := 500.5, height := 300, scale := 1 }] ∧
    (tasksDo (fullScreenshot "https://example.com" (-5)) stubBackend TaskState.init).2.log.filter
        (fun op => decide (op.kind = some OpKind.screenshotCapture)) =
      [Op.captureScreenshot CaptureScreenshotFormat.jpeg (-5)
        { x := 0, y := 0, width := 500.5, height := 300, scale := 1 }] ∧
    ¬ ((150 : Int) ≤ 100) ∧ ¬ ((0 : Int) ≤ -5) := by
  refine ⟨?_, ?_, by decide, by decide⟩
  · rw [(run_of_prior_capture "https://example.com" 150 stubBackend (by decide)).1]
    simp [allOps, Op.kind, stubBackend, stubWith]
  · rw [(run_of_prior_capture "https://example.com" (-5) stubBackend (by decide)).1]
    simp [allOps, Op.kind, stubBackend, stubWith]

/-- C7, amended: the quality parameter is passed through unchanged. For every integer
quality `q` passed to `fullScreenshot`, when every operation issued before the capture
succeeded, a capture request with quality `q` is issued, and every capture request
issued records quality `q`. -/
theorem capture_quality_passed_through (url : String) (quality : Int) (b : Backend)
    (hprior : ∀ op ∈ (tasksDo (fullScreenshot url quality) b TaskState.init).2.log,
      op.kind ≠ some OpKind.screenshotCapture → reply b op = Wait.returned none) :
    (∃ format clip, Op.captureScreenshot format quality clip ∈
      (tasksDo (fullScreenshot url quality) b TaskState.init).2.log) ∧
    (∀ format q clip, Op.captureScreenshot format q clip ∈
      (tasksDo (fullScreenshot url quality) b TaskState.init).2.log → q = quality) := by
  rw [(run_of_prior_capture url quality b hprior).1]
  refine ⟨⟨CaptureScreenshotFormat.jpeg, Viewport.mk b.contentSize.x b.contentSize.y
    b.contentSize.width b.contentSize.height 1, ?_⟩, ?_⟩
  · simp [allOps]
  · intro format q clip hmem
    simp [allOps] at hmem
    exact hmem.2.1

/-- C7 (amended) at the quality `main` passes: 90 is recorded as 90. -/
theorem capture_quality_passed_through_witness :
    (∃ format clip, Op.captureScreenshot format 90 clip ∈
      (tasksDo (fullScreenshot defaultUrl 90) stubBackend TaskState.init).2.log) ∧
    (∀ format q clip, Op.captureScreenshot format q clip ∈
      (tasksDo (fullScreenshot defaultUrl 90) stubBackend TaskState.init).2.log → q = 90) :=
  capture_quality_passed_through defaultUrl 90 stubBackend (by decide)

/-- C8 fails as stated: a content width of 799.2 gives a capture request whose clip
width is 799.2, not its ceiling 800. -/
theorem capture_width_not_rounded :
    (tasksDo (fullScreenshot "https://example.com" 90) stubWide TaskState.init).2.log.filter
        (fun op => decide (op.kind = some OpKind.screenshotCapture)) =
      [Op.captureScreenshot CaptureScreenshotFormat.jpeg 90
        { x := 0, y := 0, width := 799.2, height := 600, scale := 1 }] ∧
    ⌈(799.2 : ℚ)⌉ = 800 ∧ (799.2 : ℚ) ≠ 800 := by
  refine ⟨?_, ?_, by norm_num⟩
  · rw [(run_of_prior_capture "https://example.com" 90 stubWide (by decide)).1]
    simp [allOps, Op.kind, stubWide, stubWith]
  · rw [Int.ceil_eq_iff]
    norm_num

/-- C8, amended: the ceilings of the measured content width and height are what the
device metrics override issued before the capture requests (for ceilings that fit
`int64`); the capture request itself carries the measured width and height unrounded in
its clip. -/
theorem capture_after_ceiling_override (url : String) (quality : Int) (b : Backend)
    (hwlo : -(2 : Int) ^ 63 ≤ ⌈b.contentSize.width⌉)
    (hwhi : ⌈b.contentSize.width⌉ < (2 : Int) ^ 63)
    (hhlo : -(2 : Int) ^ 63 ≤ ⌈b.contentSize.height⌉)
    (hhhi : ⌈b.contentSize.height⌉ < (2 : Int) ^ 63)
    (hprior : ∀ op ∈ (tasksDo (fullScreenshot url quality) b TaskState.init).2.log,
      op.kind ≠ some OpKind.screenshotCapture → reply b op = Wait.returned none) :
    ∃ scale mobile orientation format clip,
      (tasksDo (fullScreenshot url quality) b TaskState.init).2.log.drop 7 =
        [Op.setDeviceMetricsOverride ⌈b.contentSize.width⌉ ⌈b.contentSize.height⌉
            scale mobile orientation,
          Op.captureScreenshot format quality clip] ∧
      clip.width = b.contentSize.width ∧ clip.height = b.contentSize.height := by
  rw [(run_of_prior_capture url quality b hprior).1]
  refine ⟨1, false, ScreenOrientation.mk OrientationType.landscapePrimary 0,
    CaptureScreenshotFormat.jpeg, Viewport.mk b.contentSize.x b.contentSize.y
      b.contentSize.width b.contentSize.height 1, ?_, rfl, rfl⟩
  simp [allOps, int64_mathCeil _ hwlo hwhi, int64_mathCeil _ hhlo hhhi]

/-- C8 (amended) at a content width of 799.2: the override asks for width 800, the
capture clip keeps 799.2. -/
theorem capture_after_ceiling_override_witness :
    ∃ scale mobile orientation format clip,
      (tasksDo (fullScreenshot "https://example.com" 90) stubWide TaskState.init).2.log.drop 7 =
        [Op.setDeviceMetricsOverride 800 600 scale mobile orientation,
          Op.captureScreenshot format 90 clip] ∧
      clip.width = 799.2 ∧ clip.height = 600 := by
  have e1 : ⌈stubWide.contentSize.width⌉ = 800 := by
    show ⌈(799.2 : ℚ)⌉ = 800
    rw [Int.ceil_eq_iff]
    norm_num
  have e2 : ⌈stubWide.contentSize.height⌉ = 600 := by
    show ⌈(600 : ℚ)⌉ = 600
    rw [Int.ceil_eq_iff]
    norm_num
  have h := capture_after_ceiling_override "https://example.com" 90 stubWide
    (by rw [e1]; norm_num) (by rw [e1]; norm_num) (by rw [e2]; norm_num)
    (by rw [e2]; norm_num) (by decide)
  rw [e1, e2] at h
  exact h

/-! ## Program entry: the output file -/

/-- C9: for all flag values, every backend, operating system and file system: if session
creation or a step of the task list fails with `e`, `main` ends with `log.Fatal(e)`,
makes no call of `WriteFile` and leaves the file system as it was (also while the run
hangs); if the task list succeeds, `main` makes exactly one call of `WriteFile`, with the
named file, exactly the bytes the capture returned and mode `0644`, the file system
afterwards is the one this call leaves, and with the write as the spec describes it the
named file holds these bytes with mode `0644` in place of any previous content while
every other file is untouched. -/
theorem main_all_or_nothing (flags : Flags) (b : Backend) (sys : OpSys) (fs : FileSystem) :
    (∀ e, (chromedpRun (fullScreenshot flags.url2Monitor 90) b TaskState.init).1 =
        Wait.returned (some e) →
      (main flags b sys fs).exit = Exit.fatal e ∧ (main flags b sys fs).fs = fs ∧
      (main flags b sys fs).writes = []) ∧
    ((chromedpRun (fullScreenshot flags.url2Monitor 90) b TaskState.init).1 = Wait.blocked →
      (main flags b sys fs).exit = Exit.hung ∧ (main flags b sys fs).fs = fs ∧
      (main flags b sys fs).writes = []) ∧
    ((chromedpRun (fullScreenshot flags.url2Monitor 90) b TaskState.init).1 =
        Wait.returned none →
      (main flags b sys fs).writes =
        [{ name := flags.filename
           data := b.image (Op.captureScreenshot CaptureScreenshotFormat.jpeg 90
             (Viewport.mk b.contentSize.x b.contentSize.y b.contentSize.width
               b.contentSize.height 1))
           perm := 0o644 }] ∧
      (main flags b sys fs).fs =
        (sys.writeFile
          { name := flags.filename
            data := b.image (Op.captureScreenshot CaptureScreenshotFormat.jpeg 90
              (Viewport.mk b.contentSize.x b.contentSize.y b.contentSize.width
                b.contentSize.height 1))
            perm := 0o644 } fs).2 ∧
      (main flags b specOpSys fs).exit = Exit.success ∧
      (main flags b specOpSys fs).fs flags.filename =
        some { data := b.image (Op.captureScreenshot CaptureScreenshotFormat.jpeg 90
                 (Viewport.mk b.contentSize.x b.contentSize.y b.contentSize.width
                   b.contentSize.height 1))
               perm := 0o644 } ∧
      (∀ n, n ≠ flags.filename → (main flags b specOpSys fs).fs n = fs n)) := by
  refine ⟨?_, ?_, ?_⟩
  · intro e h
    rcases hr : chromedpRun (fullScreenshot flags.url2Monitor 90) b TaskState.init with ⟨r, s⟩
    rw [hr] at h
    simp only at h
    subst h
    simp [main, hr]
  · intro h
    rcases hr : chromedpRun (fullScreenshot flags.url2Monitor 90) b TaskState.init with ⟨r, s⟩
    rw [hr] at h
    simp only at h
    subst h
    simp [main, hr]
  · intro h
    have hres := run_res flags.url2Monitor 90 b
      (by rw [← chromedpRun_ok _ b TaskState.init h]; exact h)
    rw [← chromedpRun_ok _ b TaskState.init h] at hres
    rcases hr : chromedpRun (fullScreenshot flags.url2Monitor 90) b TaskState.init with ⟨r, s⟩
    rw [hr] at h hres
    simp only at h hres
    subst h
    have hmain : ∀ sys : OpSys, (main flags b sys fs).writes =
          [{ name := flags.filename, data := s.res, perm := 0o644 }] ∧
        (main flags b sys fs).fs =
          (sys.writeFile { name := flags.filename, data := s.res, perm := 0o644 } fs).2 := by
      intro sys
      rcases hw : sys.writeFile { name := flags.filename, data := s.res, perm := 0o644 } fs
        with ⟨err, fs1⟩
      cases err <;> simp [main, hr, hw]
    rw [← hres]
    refine ⟨(hmain sys).1, (hmain sys).2, ?_, ?_, ?_⟩
    · simp [main, hr, specOpSys]
    · rw [(hmain specOpSys).2]
      simp [specOpSys]
    · intro n hn
      rw [(hmain specOpSys).2]
      simp [specOpSys, hn]

/-- C9 at the two scenarios: the stub that fails the layout metrics query leaves
`out.jpg` as it was, with no write; the stub that succeeds replaces `out.jpg` by the
bytes of the capture with mode `0644`. -/
theorem main_all_or_nothing_witness :
    ((main { url2Monitor := "https://example.com", filename := "out.jpg" }
        failingMetrics specOpSys oldFiles).exit =
        Exit.fatal (GoError.other "layout metrics unavailable") ∧
      (main { url2Monitor := "https://example.com", filename := "out.jpg" }
        failingMetrics specOpSys oldFiles).fs = oldFiles ∧
      (main { url2Monitor := "https://example.com", filename := "out.jpg" }
        failingMetrics specOpSys oldFiles).writes = []) ∧
    ((main { url2Monitor := "https://example.com", filename := "out.jpg" }
        stubBackend specOpSys oldFiles).writes =
        [{ name := "out.jpg", data := [0xFF, 0xD8, 0xFF, 0xD9], perm := 0o644 }] ∧
      (main { url2Monitor := "https://example.com", filename := "out.jpg" }
        stubBackend specOpSys oldFiles).exit = Exit.success ∧
      (main { url2Monitor := "https://example.com", filename := "out.jpg" }
        stubBackend specOpSys oldFiles).fs "out.jpg" =
        some { data := [0xFF, 0xD8, 0xFF, 0xD9], perm := 0o644 }) :=
  ⟨(main_all_or_nothing { url2Monitor := "https://example.com", filename := "out.jpg" }
      failingMetrics specOpSys oldFiles).1 _ (by decide),
    ((main_all_or_nothing { url2Monitor := "https://example.com", filename := "out.jpg" }
      stubBackend specOpSys oldFiles).2.2 (by decide)).1,
    ((main_all_or_nothing { url2Monitor := "https://example.com", filename := "out.jpg" }
      stubBackend specOpSys oldFiles).2.2 (by decide)).2.2.1,
    ((main_all_or_nothing { url2Monitor := "https://example.com", filename := "out.jpg" }
      stubBackend specOpSys oldFiles).2.2 (by decide)).2.2.2.1⟩

end Gomonitor
